import Mathlib

/-!
Verification of the volume-to-dataset lifecycle manager in
`src/zfs/driver.go` (package `zfsdriver`).

Go strings are embedded as `List Char`.  The external dataset backend
(the `go-zfs` dependency, which the spec treats as an external
collaborator offering existence checks, recursive creation, get-by-name,
child enumeration, mountpoint/creation-time retrieval and destruction)
is embedded as an explicit state `Backend` together with a trace of
backend calls `BCall`, following the outbound interface of spec section 6.
Driver operations are state-passing functions returning their result,
the backend state after the call, and the list of backend calls made.
-/

/-- Volume and dataset names: Go strings, embedded as lists of characters. -/
abbrev Name := List Char

/-- Option maps (`map[string]string` in Go), passed through opaquely. -/
abbrev Opts := List (Name × Name)

/-- Embeds `strings.Contains(s, c)` for a single-character separator. -/
def containsChar (c : Char) : Name → Bool
  | [] => false
  | x :: xs => x = c || containsChar c xs

/-- Splits a name at the first occurrence of `c`; `none` when `c` does not
occur.  `strings.SplitN(s, sep, 2)` returns the two parts around the first
occurrence exactly when the separator occurs. -/
def splitFirst (c : Char) : Name → Option (Name × Name)
  | [] => none
  | x :: xs =>
    if x = c then some ([], xs)
    else
      match splitFirst c xs with
      | none => none
      | some (a, b) => some (x :: a, b)

/-- Embeds `strings.SplitN(s, String(c), 2)`. -/
def splitN2 (c : Char) (s : Name) : List Name :=
  match splitFirst c s with
  | none => [s]
  | some (a, b) => [a, b]

/-- Properties of a dataset consumed by the driver.  `none` embeds a failing
property retrieval (the backend commands `GetMountpoint` / `GetCreation`
can fail independently of existence). -/
structure DatasetInfo where
  mountpoint : Option Name
  creation : Option Nat
  deriving DecidableEq, Repr

/-- Backend state: datasets in enumeration order, plus the set of paths on
which the backend's create command fails (backend errors are
backend-defined; the driver only propagates them). -/
structure Backend where
  datasets : List (Name × DatasetInfo)
  failCreate : List Name
  deriving DecidableEq, Repr

/-- Calls the driver can make on the dataset backend, recorded as a trace. -/
inductive BCall where
  | existsCheck (name : Name)
  | createRecursive (name : Name) (opts : Opts)
  | getByName (name : Name)
  | listChildren (root : Name)
  | getMountpoint (name : Name)
  | getCreation (name : Name)
  | destroyDS (name : Name)
  deriving DecidableEq, Repr

/-- Errors surfaced by the driver operations. -/
inductive DriverError where
  | alreadyExists (dataset : Name)
  | createFailed (dataset : Name)
  | notFound (dataset : Name)
  | mountpointFailed (dataset : Name)
  | noDatasets
  deriving DecidableEq, Repr

/-- Association-list lookup of a dataset by its full path
(`zfs.GetDataset`). -/
def lookupDS (n : Name) : List (Name × DatasetInfo) → Option DatasetInfo
  | [] => none
  | (k, v) :: rest => if k = n then some v else lookupDS n rest

/-- Embeds `zfs.DatasetExists`. -/
def datasetExists (n : Name) (s : Backend) : Bool :=
  (lookupDS n s.datasets).isSome

/-- Splits a path into its slash-separated components. -/
def splitOnSlash : Name → List Name
  | [] => [[]]
  | x :: xs =>
    match splitOnSlash xs with
    | [] => [[]]
    | h :: t => if x = '/' then [] :: h :: t else (x :: h) :: t

/-- Joins components with slashes (inverse of `splitOnSlash`). -/
def joinComponents : List Name → Name
  | [] => []
  | [c] => c
  | c :: cs => c ++ '/' :: joinComponents cs

/-- Joins of every nonempty leading run of components: for `a/b/c` the list
`[a, a/b, a/b/c]` — the intermediate parent datasets a recursive create
materializes, ending with the full path. -/
def leadingJoins : List Name → List Name
  | [] => []
  | [c] => [c]
  | c :: cs => c :: (leadingJoins cs).map (fun p => c ++ '/' :: p)

/-- All ancestor paths of a dataset path, the path itself last. -/
def ancestorPaths (n : Name) : List Name :=
  leadingJoins (splitOnSlash n)

/-- Properties the backend assigns to a dataset it creates: the default
mountpoint `/<path>` and a creation timestamp.  Modelled from the spec's
backend interface (section 6): the backend is external; created datasets
are mounted and carry a creation time. -/
def newInfo (n : Name) : DatasetInfo :=
  { mountpoint := some ('/' :: n), creation := some 0 }

/-- Adds a dataset at path `n` unless one already exists there. -/
def insertIfMissing (l : List (Name × DatasetInfo)) (n : Name) :
    List (Name × DatasetInfo) :=
  match lookupDS n l with
  | some _ => l
  | none => (n, newInfo n) :: l

/-- Embeds `zfs.CreateDatasetRecursive`: creates every missing dataset along
the path (parents first), failing on paths the backend rejects. -/
def createDatasetRecursive (n : Name) (_opts : Opts) (s : Backend) :
    Except DriverError Backend :=
  if n ∈ s.failCreate then .error (.createFailed n)
  else .ok { s with datasets := (ancestorPaths n).foldl insertIfMissing s.datasets }

/-- Driver state: the configured root datasets, in configuration order
(`zd.rds`; the Go code stores `*zfs.Dataset` values but only ever uses
their `Name`). -/
structure ZfsDriver where
  rds : List Name
  deriving DecidableEq, Repr

/-- Embeds the name-resolution block of `Create` (driver.go lines 51–75):
a name containing `_` is split at the first `_` into project and volume
parts and, when at least one root dataset is configured, mapped to
`<firstRoot>/<project>/<volume>`; otherwise the name is used unchanged. -/
def resolveName (volumeName : Name) (rds : List Name) : Name :=
  if containsChar '_' volumeName then
    match splitN2 '_' volumeName with
    | [projectName, actualVolumeName] =>
      match rds with
      | rootDS :: _ => rootDS ++ '/' :: (projectName ++ '/' :: actualVolumeName)
      | [] => volumeName
    | _ => volumeName
  else volumeName

/-- Create request (`volume.CreateRequest`). -/
structure CreateRequest where
  name : Name
  options : Opts
  deriving DecidableEq, Repr

/-- Embeds `ZfsDriver.Create`: resolve the dataset path, fail with
AlreadyExists when a dataset is already there, otherwise create it
recursively with the request's options. -/
def Create (zd : ZfsDriver) (req : CreateRequest) (s : Backend) :
    Except DriverError Unit × Backend × List BCall :=
  let datasetName := resolveName req.name zd.rds
  if datasetExists datasetName s then
    (.error (.alreadyExists datasetName), s, [.existsCheck datasetName])
  else
    match createDatasetRecursive datasetName req.options s with
    | .error e =>
      (.error e, s, [.existsCheck datasetName, .createRecursive datasetName req.options])
    | .ok s1 =>
      (.ok (), s1, [.existsCheck datasetName, .createRecursive datasetName req.options])

/-- External volume record (`volume.Volume`): name, mountpoint, and the
optional creation timestamp (`CreatedAt`, absent when the creation
property was unavailable). -/
structure Volume where
  name : Name
  mountpoint : Name
  createdAt : Option Nat
  deriving DecidableEq, Repr

/-- Get request (`volume.GetRequest`). -/
structure GetRequest where
  name : Name
  deriving DecidableEq, Repr

/-- Path request (`volume.PathRequest`). -/
structure PathRequest where
  name : Name
  deriving DecidableEq, Repr

/-- Mount request (`volume.MountRequest`). -/
structure MountRequest where
  name : Name
  id : Name
  deriving DecidableEq, Repr

/-- Unmount request (`volume.UnmountRequest`). -/
structure UnmountRequest where
  name : Name
  id : Name
  deriving DecidableEq, Repr

/-- Remove request (`volume.RemoveRequest`). -/
structure RemoveRequest where
  name : Name
  deriving DecidableEq, Repr

/-- Embeds `ZfsDriver.getVolume`: get the dataset by the given name, fail
if the mountpoint is unavailable, and degrade to an absent `createdAt`
when the creation property is unavailable. -/
def getVolume (name : Name) (s : Backend) :
    Except DriverError Volume × List BCall :=
  match lookupDS name s.datasets with
  | none => (.error (.notFound name), [.getByName name])
  | some ds =>
    match ds.mountpoint with
    | none =>
      (.error (.mountpointFailed name), [.getByName name, .getMountpoint name])
    | some mp =>
      match ds.creation with
      | none =>
        (.ok { name := name, mountpoint := mp, createdAt := none },
         [.getByName name, .getMountpoint name, .getCreation name])
      | some ts =>
        (.ok { name := name, mountpoint := mp, createdAt := some ts },
         [.getByName name, .getMountpoint name, .getCreation name])

/-- Embeds `ZfsDriver.Get`: wraps `getVolume` on the requested name. -/
def Get (req : GetRequest) (s : Backend) :
    Except DriverError Volume × List BCall :=
  getVolume req.name s

/-- Embeds `ZfsDriver.getMP`: get the dataset by name, then its mountpoint. -/
def getMP (name : Name) (s : Backend) :
    Except DriverError Name × List BCall :=
  match lookupDS name s.datasets with
  | none => (.error (.notFound name), [.getByName name])
  | some ds =>
    match ds.mountpoint with
    | none =>
      (.error (.mountpointFailed name), [.getByName name, .getMountpoint name])
    | some mp => (.ok mp, [.getByName name, .getMountpoint name])

/-- Embeds `ZfsDriver.Path` (named `PathOp` since `Path` is taken):
returns the mountpoint of the named volume. -/
def PathOp (req : PathRequest) (s : Backend) :
    Except DriverError Name × List BCall :=
  getMP req.name s

/-- Embeds `ZfsDriver.Mount`: returns the mountpoint; no mount action is
performed. -/
def Mount (req : MountRequest) (s : Backend) :
    Except DriverError Name × List BCall :=
  getMP req.name s

/-- Embeds `ZfsDriver.Unmount`: returns success, touching neither the
backend state nor making any backend call. -/
def Unmount (_req : UnmountRequest) (s : Backend) :
    Except DriverError Unit × Backend × List BCall :=
  (.ok (), s, [])

/-- Removes the dataset at path `n` from the backend state
(`Dataset.Destroy`). -/
def destroyDataset (n : Name) (s : Backend) : Backend :=
  { s with datasets := s.datasets.filter (fun p => p.1 ≠ n) }

/-- Embeds `ZfsDriver.Remove`: get the dataset by the requested name, then
destroy it. -/
def Remove (req : RemoveRequest) (s : Backend) :
    Except DriverError Unit × Backend × List BCall :=
  match lookupDS req.name s.datasets with
  | none => (.error (.notFound req.name), s, [.getByName req.name])
  | some _ =>
    (.ok (), destroyDataset req.name s,
     [.getByName req.name, .destroyDS req.name])

/-- Embeds `Dataset.DatasetList` on a root: the descendant datasets of the
root, in backend enumeration order. -/
def datasetList (root : Name) (s : Backend) : List (Name × DatasetInfo) :=
  s.datasets.filter (fun p => (root ++ ['/']).isPrefixOf p.1)

/-- Inner loop of `ZfsDriver.List` over one root's dataset list: a failing
mountpoint retrieval logs and `continue`s, skipping the dataset. -/
def listRootVols : List (Name × DatasetInfo) → List Volume × List BCall
  | [] => ([], [])
  | (n, ds) :: rest =>
    match ds.mountpoint with
    | none => ((listRootVols rest).1, .getMountpoint n :: (listRootVols rest).2)
    | some mp =>
      ({ name := n, mountpoint := mp, createdAt := none } :: (listRootVols rest).1,
       .getMountpoint n :: (listRootVols rest).2)

/-- Outer loop of `ZfsDriver.List` over the configured roots, in
configuration order.  Enumeration itself always succeeds in this model
(the backend state is a plain list). -/
def listRoots : List Name → Backend → List Volume × List BCall
  | [], _ => ([], [])
  | r :: rs, s =>
    ((listRootVols (datasetList r s)).1 ++ (listRoots rs s).1,
     .listChildren r :: ((listRootVols (datasetList r s)).2 ++ (listRoots rs s).2))

/-- Embeds `ZfsDriver.List` (named `ListOp` since `List` is taken in Lean):
aggregates the volumes of every configured root's dataset list. -/
def ListOp (zd : ZfsDriver) (s : Backend) :
    Except DriverError (List Volume) × List BCall :=
  (.ok (listRoots zd.rds s).1, (listRoots zd.rds s).2)

/-- Loop body of `NewZfsDriver` over the requested root dataset names:
create a root when absent (recursively, with no options), then get it and
append it to the driver's roots; the first backend error aborts. -/
def newZfsDriverLoop : List Name → List Name → Backend →
    Except DriverError (ZfsDriver × Backend)
  | [], acc, s => .ok ({ rds := acc }, s)
  | ds :: rest, acc, s =>
    match (if datasetExists ds s then .ok s
           else createDatasetRecursive ds [] s : Except DriverError Backend) with
    | .error e => .error e
    | .ok s1 =>
      match lookupDS ds s1.datasets with
      | none => .error (.notFound ds)
      | some _ => newZfsDriverLoop rest (acc ++ [ds]) s1

/-- Embeds `NewZfsDriver`: requires at least one root dataset name, ensures
each exists, and returns the driver holding them in order. -/
def NewZfsDriver (dss : List Name) (s : Backend) :
    Except DriverError (ZfsDriver × Backend) :=
  if dss.length < 1 then .error .noDatasets
  else newZfsDriverLoop dss [] s

deriving instance DecidableEq for Except

/-! Lemmas about the separator split. -/

theorem resolveName_of_not_contains (n : Name) (rds : List Name)
    (h : containsChar '_' n = false) : resolveName n rds = n := by
  simp [resolveName, h]

theorem splitFirst_append_cons (c : Char) (g m : Name)
    (h : containsChar c g = false) : splitFirst c (g ++ c :: m) = some (g, m) := by
  induction g with
  | nil => simp [splitFirst]
  | cons x xs ih =>
    simp only [containsChar, Bool.or_eq_false_iff, decide_eq_false_iff_not] at h
    simp only [List.cons_append, splitFirst, if_neg h.1, List.append_eq]
    rw [ih h.2]

theorem containsChar_of_splitFirst (c : Char) (s : Name) (p : Name × Name)
    (h : splitFirst c s = some p) : containsChar c s = true := by
  induction s generalizing p with
  | nil => simp [splitFirst] at h
  | cons x xs ih =>
    by_cases hx : x = c
    · simp [containsChar, hx]
    · simp only [splitFirst, if_neg hx] at h
      match hs : splitFirst c xs with
      | none => rw [hs] at h; simp at h
      | some q =>
        simp [containsChar, hx, ih q hs]

theorem splitFirst_eq_some (c : Char) (s a b : Name)
    (h : splitFirst c s = some (a, b)) :
    s = a ++ c :: b ∧ containsChar c a = false := by
  induction s generalizing a b with
  | nil => simp [splitFirst] at h
  | cons x xs ih =>
    by_cases hx : x = c
    · simp only [splitFirst, if_pos hx] at h
      cases h
      simp [hx, containsChar]
    · simp only [splitFirst, if_neg hx] at h
      cases hs : splitFirst c xs with
      | none => rw [hs] at h; simp at h
      | some q =>
        obtain ⟨a0, b0⟩ := q
        rw [hs] at h
        simp only [Option.some.injEq, Prod.mk.injEq] at h
        obtain ⟨ha, hb⟩ := h
        subst ha
        subst hb
        obtain ⟨h1, h2⟩ := ih a0 b0 hs
        constructor
        · simp [h1]
        · simp [containsChar, hx, h2]

/-! Lemmas about path components and recursive creation. -/

theorem splitOnSlash_ne_nil (n : Name) : splitOnSlash n ≠ [] := by
  cases n with
  | nil => simp [splitOnSlash]
  | cons x xs =>
    simp only [splitOnSlash]
    cases splitOnSlash xs with
    | nil => simp
    | cons h t =>
      show (if x = '/' then [] :: h :: t else (x :: h) :: t) ≠ []
      split <;> simp

theorem joinComponents_cons_head (x : Char) (h : Name) (t : List Name) :
    joinComponents ((x :: h) :: t) = x :: joinComponents (h :: t) := by
  cases t <;> simp [joinComponents]

theorem joinComponents_splitOnSlash (n : Name) :
    joinComponents (splitOnSlash n) = n := by
  induction n with
  | nil => rfl
  | cons x xs ih =>
    simp only [splitOnSlash]
    cases hs : splitOnSlash xs with
    | nil => exact absurd hs (splitOnSlash_ne_nil xs)
    | cons h t =>
      rw [hs] at ih
      show joinComponents (if x = '/' then [] :: h :: t else (x :: h) :: t) = x :: xs
      by_cases hx : x = '/'
      · subst hx
        simp only [if_pos rfl, joinComponents, List.nil_append]
        cases t <;> simp_all [joinComponents]
      · rw [if_neg hx, joinComponents_cons_head, ih]

theorem joinComponents_mem_leadingJoins :
    ∀ cs : List Name, cs ≠ [] → joinComponents cs ∈ leadingJoins cs
  | [], h => absurd rfl h
  | [c], _ => by simp [joinComponents, leadingJoins]
  | c :: c2 :: cs, _ => by
    have ih := joinComponents_mem_leadingJoins (c2 :: cs) (by simp)
    simp only [leadingJoins, joinComponents]
    exact List.mem_cons_of_mem _ (List.mem_map_of_mem _ ih)

theorem self_mem_ancestorPaths (n : Name) : n ∈ ancestorPaths n := by
  have h := joinComponents_mem_leadingJoins (splitOnSlash n) (splitOnSlash_ne_nil n)
  rwa [joinComponents_splitOnSlash] at h

theorem lookupDS_insertIfMissing_of_some (l : List (Name × DatasetInfo))
    (p k : Name) (v : DatasetInfo) (h : lookupDS k l = some v) :
    lookupDS k (insertIfMissing l p) = some v := by
  unfold insertIfMissing
  cases hp : lookupDS p l with
  | some w => exact h
  | none =>
    simp only [lookupDS]
    by_cases hpk : p = k
    · subst hpk; rw [h] at hp; cases hp
    · rw [if_neg hpk]; exact h

theorem lookupDS_insertIfMissing_of_none (l : List (Name × DatasetInfo))
    (p k : Name) (h : lookupDS k l = none) :
    lookupDS k (insertIfMissing l p) =
      if k = p then some (newInfo p) else none := by
  unfold insertIfMissing
  cases hp : lookupDS p l with
  | some w =>
    by_cases hkp : k = p
    · subst hkp; rw [h] at hp; cases hp
    · rw [if_neg hkp]; exact h
  | none =>
    simp only [lookupDS]
    by_cases hkp : k = p
    · subst hkp; simp
    · rw [if_neg hkp, if_neg (fun hpk => hkp hpk.symm)]; exact h

theorem lookupDS_foldl_insertIfMissing (ps : List Name)
    (l : List (Name × DatasetInfo)) (k : Name) :
    lookupDS k (ps.foldl insertIfMissing l) =
      match lookupDS k l with
      | some v => some v
      | none => if k ∈ ps then some (newInfo k) else none := by
  induction ps generalizing l with
  | nil => cases h : lookupDS k l <;> simp [h]
  | cons p ps ih =>
    rw [List.foldl_cons, ih]
    cases h : lookupDS k l with
    | some v => rw [lookupDS_insertIfMissing_of_some l p k v h]
    | none =>
      rw [lookupDS_insertIfMissing_of_none l p k h]
      by_cases hkp : k = p
      · subst hkp; simp
      · simp [hkp]

/-! Characterization of `Create`. -/

theorem Create_trace_head (zd : ZfsDriver) (req : CreateRequest) (s : Backend) :
    (Create zd req s).2.2.head? =
      some (.existsCheck (resolveName req.name zd.rds)) := by
  unfold Create
  by_cases he : datasetExists (resolveName req.name zd.rds) s
  · simp [he]
  · simp only [he, Bool.false_eq_true, if_false]
    cases createDatasetRecursive (resolveName req.name zd.rds) req.options s <;> simp

theorem Create_not_exists_ok (zd : ZfsDriver) (req : CreateRequest) (s : Backend)
    (he : datasetExists (resolveName req.name zd.rds) s = false)
    (hf : resolveName req.name zd.rds ∉ s.failCreate) :
    Create zd req s =
      (.ok (),
       { s with datasets := (ancestorPaths (resolveName req.name zd.rds)).foldl insertIfMissing s.datasets },
       [.existsCheck (resolveName req.name zd.rds),
        .createRecursive (resolveName req.name zd.rds) req.options]) := by
  unfold Create createDatasetRecursive
  simp [he, hf]

theorem Create_ok_inv (zd : ZfsDriver) (req : CreateRequest) (s : Backend)
    (h : (Create zd req s).1 = .ok ()) :
    datasetExists (resolveName req.name zd.rds) s = false ∧
    resolveName req.name zd.rds ∉ s.failCreate := by
  unfold Create createDatasetRecursive at h
  by_cases he : datasetExists (resolveName req.name zd.rds) s
  · simp [he] at h
  · by_cases hf : resolveName req.name zd.rds ∈ s.failCreate
    · simp [he, hf] at h
    · exact ⟨by simpa using he, hf⟩

/-- Sample backend holding a single root dataset `tank`, used to
instantiate the universally quantified theorems at concrete inputs. -/
def sampleBackend : Backend :=
  { datasets := [("tank".toList, { mountpoint := some "/tank".toList, creation := some 0 })],
    failCreate := [] }

/-- Sample driver configured with the single root `tank`. -/
def sampleDriver : ZfsDriver := { rds := ["tank".toList] }

/-- General resolution fact: a name splitting at its first separator into
`(g, m)` resolves, with a first configured root `R`, to `R/g/m`. -/
theorem resolveName_of_splitFirst (nm g m R : Name) (rest : List Name)
    (hsp : splitFirst '_' nm = some (g, m)) :
    resolveName nm (R :: rest) = R ++ '/' :: (g ++ '/' :: m) := by
  have hc : containsChar '_' nm = true :=
    containsChar_of_splitFirst '_' nm (g, m) hsp
  unfold resolveName splitN2
  rw [hc, hsp]
  simp

/-- C7: a requested name without the group separator is resolved by
`Create` to itself unchanged, regardless of the configured roots, and the
dataset path `Create` checks and uses is exactly the requested name. -/
theorem create_ungrouped_resolves_unchanged (n : Name) (zd : ZfsDriver)
    (opts : Opts) (s : Backend) (h : containsChar '_' n = false) :
    resolveName n zd.rds = n ∧
    (Create zd { name := n, options := opts } s).2.2.head? =
      some (.existsCheck n) := by
  have hres := resolveName_of_not_contains n zd.rds h
  refine ⟨hres, ?_⟩
  rw [Create_trace_head]
  rw [show ({ name := n, options := opts } : CreateRequest).name = n from rfl, hres]

/-- Witness for C7 at the concrete name `vol`, driver `[tank]`, and a
one-dataset backend. -/
theorem create_ungrouped_resolves_unchanged_witness :
    resolveName "vol".toList sampleDriver.rds = "vol".toList ∧
    (Create sampleDriver { name := "vol".toList, options := [] } sampleBackend).2.2.head? =
      some (.existsCheck "vol".toList) :=
  create_ungrouped_resolves_unchanged "vol".toList sampleDriver [] sampleBackend
    (by decide)

/-- C3: a requested name `g_m` whose group segment `g` is nonempty and
separator-free and whose member segment `m` is nonempty resolves, when at
least one root `R` is configured (first in configuration order), to
`R/g/m` — the split is at the first separator occurrence only, so `m` may
itself contain the separator — and that path is the one `Create` checks
and uses. -/
theorem create_grouped_resolution (g m R : Name) (rest : List Name)
    (zd : ZfsDriver) (opts : Opts) (s : Backend)
    (hg : containsChar '_' g = false) (hgne : g ≠ []) (hmne : m ≠ [])
    (hz : zd.rds = R :: rest) :
    resolveName (g ++ '_' :: m) zd.rds = R ++ '/' :: (g ++ '/' :: m) ∧
    (Create zd { name := g ++ '_' :: m, options := opts } s).2.2.head? =
      some (.existsCheck (R ++ '/' :: (g ++ '/' :: m))) := by
  have hsp : splitFirst '_' (g ++ '_' :: m) = some (g, m) :=
    splitFirst_append_cons '_' g m hg
  have hres : resolveName (g ++ '_' :: m) zd.rds = R ++ '/' :: (g ++ '/' :: m) := by
    rw [hz]; exact resolveName_of_splitFirst _ g m R rest hsp
  refine ⟨hres, ?_⟩
  rw [Create_trace_head]
  rw [show ({ name := g ++ '_' :: m, options := opts } : CreateRequest).name
      = g ++ '_' :: m from rfl, hres]

/-- Witness for C3: `proj_vol` with root `tank` resolves to
`tank/proj/vol`. -/
theorem create_grouped_resolution_witness :
    resolveName "proj_vol".toList sampleDriver.rds = "tank/proj/vol".toList ∧
    (Create sampleDriver { name := "proj_vol".toList, options := [] } sampleBackend).2.2.head? =
      some (.existsCheck "tank/proj/vol".toList) :=
  create_grouped_resolution "proj".toList "vol".toList "tank".toList []
    sampleDriver [] sampleBackend (by decide) (by decide) (by decide) rfl

/-- C1 is refuted by the code: for a name with an empty group or member
segment the grouping is still applied.  Amended claim: when the requested
name contains the separator and splits into `(g, m)` with `g` or `m`
empty, and at least one root is configured, `Create` still applies
grouping and resolves the name to `<firstRoot>/<g>/<m>`, which differs
from the requested name. -/
theorem create_empty_segment_grouping (nm g m R : Name) (rest : List Name)
    (zd : ZfsDriver) (opts : Opts) (s : Backend)
    (hsp : splitFirst '_' nm = some (g, m)) (hempty : g = [] ∨ m = [])
    (hz : zd.rds = R :: rest) :
    resolveName nm zd.rds = R ++ '/' :: (g ++ '/' :: m) ∧
    resolveName nm zd.rds ≠ nm ∧
    (Create zd { name := nm, options := opts } s).2.2.head? =
      some (.existsCheck (R ++ '/' :: (g ++ '/' :: m))) := by
  have hres : resolveName nm zd.rds = R ++ '/' :: (g ++ '/' :: m) := by
    rw [hz]; exact resolveName_of_splitFirst nm g m R rest hsp
  refine ⟨hres, ?_, ?_⟩
  · intro heq
    rw [hres] at heq
    have hnm := (splitFirst_eq_some '_' nm g m hsp).1
    have hlen := congrArg List.length heq
    rw [hnm] at hlen
    simp [List.length_append, List.length_cons] at hlen
    omega
  · rw [Create_trace_head]
    rw [show ({ name := nm, options := opts } : CreateRequest).name = nm from rfl, hres]

/-- Witness for the amended C1 at the concrete name `_vol` (empty group
segment) with root `tank`: grouping applies, yielding `tank//vol`. -/
theorem create_empty_segment_grouping_witness :
    resolveName "_vol".toList sampleDriver.rds = "tank//vol".toList ∧
    resolveName "_vol".toList sampleDriver.rds ≠ "_vol".toList ∧
    (Create sampleDriver { name := "_vol".toList, options := [] } sampleBackend).2.2.head? =
      some (.existsCheck "tank//vol".toList) :=
  create_empty_segment_grouping "_vol".toList [] "vol".toList "tank".toList []
    sampleDriver [] sampleBackend (by decide) (Or.inl rfl) rfl

/-- Counterexample to C1 as stated: the requested name `_vol` has an empty
group segment, yet with root `tank` configured `Create` does not resolve
it to itself — the dataset path it checks is `tank//vol`. -/
theorem create_empty_segment_counterexample :
    resolveName "_vol".toList sampleDriver.rds ≠ "_vol".toList ∧
    (Create sampleDriver { name := "_vol".toList, options := [] } sampleBackend).2.2.head? =
      some (.existsCheck "tank//vol".toList) := by
  exact ⟨by decide, by decide⟩

/-- C4: when a dataset already exists at the resolved path, `Create`
returns the AlreadyExists error, leaves the backend state unchanged, and
makes no creation call — its backend trace is the existence check alone. -/
theorem create_already_exists_no_creation (zd : ZfsDriver) (req : CreateRequest)
    (s : Backend) (h : datasetExists (resolveName req.name zd.rds) s = true) :
    Create zd req s =
      (.error (.alreadyExists (resolveName req.name zd.rds)), s,
       [.existsCheck (resolveName req.name zd.rds)]) := by
  unfold Create
  simp [h]

/-- Witness for C4: creating `tank` again on the sample backend fails with
AlreadyExists and leaves the backend untouched. -/
theorem create_already_exists_no_creation_witness :
    datasetExists (resolveName "tank".toList sampleDriver.rds) sampleBackend = true ∧
    Create sampleDriver { name := "tank".toList, options := [] } sampleBackend =
      (.error (.alreadyExists (resolveName "tank".toList sampleDriver.rds)), sampleBackend,
       [.existsCheck (resolveName "tank".toList sampleDriver.rds)]) :=
  ⟨by decide,
   create_already_exists_no_creation sampleDriver
     { name := "tank".toList, options := [] } sampleBackend (by decide)⟩

/-- After a successful creation at a fresh resolved path, getting that
resolved path returns the freshly created volume. -/
theorem get_after_create (zd : ZfsDriver) (nm : Name) (opts : Opts) (s : Backend)
    (he : datasetExists (resolveName nm zd.rds) s = false)
    (hf : resolveName nm zd.rds ∉ s.failCreate) :
    (Get { name := resolveName nm zd.rds }
        (Create zd { name := nm, options := opts } s).2.1).1 =
      .ok { name := resolveName nm zd.rds,
            mountpoint := '/' :: resolveName nm zd.rds, createdAt := some 0 } := by
  rw [Create_not_exists_ok zd { name := nm, options := opts } s he hf]
  unfold Get getVolume
  have hnone : lookupDS (resolveName nm zd.rds) s.datasets = none := by
    cases hcase : lookupDS (resolveName nm zd.rds) s.datasets with
    | none => rfl
    | some v => unfold datasetExists at he; rw [hcase] at he; simp at he
  have hlook : lookupDS (resolveName nm zd.rds)
      ((ancestorPaths (resolveName nm zd.rds)).foldl insertIfMissing s.datasets) =
      some (newInfo (resolveName nm zd.rds)) := by
    rw [lookupDS_foldl_insertIfMissing, hnone]
    simp [self_mem_ancestorPaths]
  simp only [hlook, newInfo]

/-- C2 is refuted by the code: for a grouped name the created dataset
lives at the resolved path, but `Get` looks the requested name up
verbatim, so Create-then-Get fails with NotFound. -/
theorem create_then_get_counterexample :
    (Create sampleDriver { name := "proj_vol".toList, options := [] } sampleBackend).1 =
      .ok () ∧
    (Get { name := "proj_vol".toList }
        (Create sampleDriver { name := "proj_vol".toList, options := [] } sampleBackend).2.1).1 =
      .error (.notFound "proj_vol".toList) :=
  ⟨by decide, by decide⟩

/-- C2 (amended): for a requested name without the group separator (so
that the resolved dataset path equals the requested name), a successful
`Create` followed by `Get` on the same name returns a volume whose name
equals the resolved dataset path and whose mountpoint is non-empty. -/
theorem create_then_get_ungrouped (zd : ZfsDriver) (n : Name) (opts : Opts)
    (s : Backend) (hn : containsChar '_' n = false)
    (hok : (Create zd { name := n, options := opts } s).1 = .ok ()) :
    ∃ v, (Get { name := n } (Create zd { name := n, options := opts } s).2.1).1 =
        .ok v ∧ v.name = resolveName n zd.rds ∧ v.mountpoint ≠ [] := by
  have hres : resolveName n zd.rds = n := resolveName_of_not_contains n zd.rds hn
  obtain ⟨he, hf⟩ := Create_ok_inv zd { name := n, options := opts } s hok
  have hg := get_after_create zd n opts s he hf
  rw [hres] at hg
  exact ⟨{ name := n, mountpoint := '/' :: n, createdAt := some 0 }, hg,
    by simp [hres], by simp⟩

/-- Witness for the amended C2: creating and then getting `vol` on the
sample backend yields the volume named `vol` mounted at `/vol`. -/
theorem create_then_get_ungrouped_witness :
    (∃ v, (Get { name := "vol".toList }
        (Create sampleDriver { name := "vol".toList, options := [] } sampleBackend).2.1).1 =
        .ok v ∧ v.name = resolveName "vol".toList sampleDriver.rds ∧ v.mountpoint ≠ []) :=
  create_then_get_ungrouped sampleDriver "vol".toList [] sampleBackend
    (by decide) (by decide)

/-- Sample backend whose single dataset has a mountpoint but no readable
creation timestamp. -/
def staleBackend : Backend :=
  { datasets := [("tank/old".toList,
      { mountpoint := some "/tank/old".toList, creation := none })],
    failCreate := [] }

/-- C5: when the dataset is found and its mountpoint retrieval succeeds
but its creation-timestamp retrieval fails, `Get` still succeeds and
returns the volume with the requested name, the retrieved mountpoint, and
an absent timestamp. -/
theorem get_missing_creation_timestamp (nm mp : Name) (s : Backend)
    (ds : DatasetInfo) (h1 : lookupDS nm s.datasets = some ds)
    (h2 : ds.mountpoint = some mp) (h3 : ds.creation = none) :
    (Get { name := nm } s).1 =
      .ok { name := nm, mountpoint := mp, createdAt := none } := by
  unfold Get getVolume
  simp [h1, h2, h3]

/-- Witness for C5 on the backend whose dataset `tank/old` has no
readable creation timestamp. -/
theorem get_missing_creation_timestamp_witness :
    lookupDS "tank/old".toList staleBackend.datasets =
      some { mountpoint := some "/tank/old".toList, creation := none } ∧
    (Get { name := "tank/old".toList } staleBackend).1 =
      .ok { name := "tank/old".toList, mountpoint := "/tank/old".toList,
            createdAt := none } :=
  ⟨by decide,
   get_missing_creation_timestamp "tank/old".toList "/tank/old".toList staleBackend
     { mountpoint := some "/tank/old".toList, creation := none }
     (by decide) rfl rfl⟩

/-- C9: `Unmount` always succeeds, leaves the backend state exactly as it
was, and makes no backend call of any kind. -/
theorem unmount_noop (req : UnmountRequest) (s : Backend) :
    Unmount req s = (.ok (), s, []) := rfl

/-- C10: `Get`, `Path`, `Mount` and `Remove` all pass the requested name
verbatim as the backend lookup (the first backend call each makes is the
get-by-name on exactly the requested name, with no grouping applied), and
a volume returned by `Get` carries the requested name verbatim. -/
theorem ops_verbatim_name (nm i : Name) (s : Backend) :
    (Get { name := nm } s).2.head? = some (.getByName nm) ∧
    (PathOp { name := nm } s).2.head? = some (.getByName nm) ∧
    (Mount { name := nm, id := i } s).2.head? = some (.getByName nm) ∧
    (Remove { name := nm } s).2.2.head? = some (.getByName nm) ∧
    (Get { name := nm } s).1.map Volume.name =
      (Get { name := nm } s).1.map (fun _ => nm) := by
  unfold Get PathOp Mount Remove getVolume getMP
  dsimp only
  cases hl : lookupDS nm s.datasets with
  | none => simp [Except.map]
  | some ds =>
    cases hm : ds.mountpoint with
    | none => simp [hm, Except.map]
    | some mp =>
      cases hc : ds.creation with
      | none => simp [hm, hc, Except.map]
      | some ts => simp [hm, hc, Except.map]

/-! Lemmas for List aggregation. -/

theorem listRootVols_fst (l : List (Name × DatasetInfo)) :
    (listRootVols l).1 = l.filterMap (fun p => p.2.mountpoint.map
      (fun mp => { name := p.1, mountpoint := mp, createdAt := none })) := by
  induction l with
  | nil => rfl
  | cons p rest ih =>
    obtain ⟨n, ds⟩ := p
    cases hm : ds.mountpoint with
    | none => simp [listRootVols, hm, List.filterMap_cons, ih]
    | some mp => simp [listRootVols, hm, List.filterMap_cons, ih]

theorem listRoots_fst (rs : List Name) (s : Backend) :
    (listRoots rs s).1 = rs.flatMap (fun r => (datasetList r s).filterMap
      (fun p => p.2.mountpoint.map
        (fun mp => { name := p.1, mountpoint := mp, createdAt := none }))) := by
  induction rs with
  | nil => rfl
  | cons r rest ih => simp [listRoots, listRootVols_fst, ih]

/-- C6: `List` never aborts on a per-dataset mountpoint failure — it
returns, aggregated in root-configuration order, exactly the datasets of
every configured root whose mountpoint retrieval succeeds; a dataset whose
mountpoint is unavailable is skipped and the rest are still returned. -/
theorem list_skips_failed_mountpoints (zd : ZfsDriver) (s : Backend) :
    (ListOp zd s).1 = .ok (zd.rds.flatMap (fun r => (datasetList r s).filterMap
      (fun p => p.2.mountpoint.map
        (fun mp => { name := p.1, mountpoint := mp, createdAt := none })))) := by
  unfold ListOp
  rw [listRoots_fst]

/-- Helper: a successful recursive create preserves every existing dataset
and makes the target path exist. -/
theorem createDatasetRecursive_exists (d : Name) (opts : Opts) (s s1 : Backend)
    (h : createDatasetRecursive d opts s = .ok s1) :
    datasetExists d s1 = true ∧
    ∀ n, datasetExists n s = true → datasetExists n s1 = true := by
  unfold createDatasetRecursive at h
  by_cases hf : d ∈ s.failCreate
  · simp [hf] at h
  · rw [if_neg hf] at h
    injection h with h
    subst h
    constructor
    · unfold datasetExists
      dsimp only
      rw [lookupDS_foldl_insertIfMissing]
      cases hl : lookupDS d s.datasets with
      | some v => simp
      | none => simp [self_mem_ancestorPaths]
    · intro n hn
      unfold datasetExists at hn ⊢
      dsimp only
      rw [lookupDS_foldl_insertIfMissing]
      cases hl : lookupDS n s.datasets with
      | none => rw [hl] at hn; simp at hn
      | some v => simp

/-- Sample backend on which creating the dataset `bad` fails. -/
def failingBackend : Backend :=
  { datasets := [("tank".toList, { mountpoint := some "/tank".toList, creation := some 0 })],
    failCreate := ["bad".toList] }

/-- Helper: a successful run of the constructor loop accumulates exactly
the requested roots, in order, and every requested root exists in the
final backend state. -/
theorem newZfsDriverLoop_ok (dss : List Name) (acc : List Name) (s : Backend)
    (zd : ZfsDriver) (s1 : Backend)
    (h : newZfsDriverLoop dss acc s = .ok (zd, s1)) :
    zd.rds = acc ++ dss ∧ (∀ n, n ∈ dss → datasetExists n s1 = true) ∧
    (∀ n, datasetExists n s = true → datasetExists n s1 = true) := by
  induction dss generalizing acc s with
  | nil =>
    unfold newZfsDriverLoop at h
    cases h
    exact ⟨by simp, by simp, fun n hn => hn⟩
  | cons d rest ih =>
    unfold newZfsDriverLoop at h
    by_cases hd : datasetExists d s
    · rw [if_pos hd] at h
      dsimp only at h
      cases hl : lookupDS d s.datasets with
      | none =>
        unfold datasetExists at hd; rw [hl] at hd; simp at hd
      | some info =>
        rw [hl] at h
        obtain ⟨h1, h2, h3⟩ := ih (acc ++ [d]) s h
        refine ⟨by simpa using h1, ?_, h3⟩
        intro n hn
        rcases List.mem_cons.mp hn with rfl | hn2
        · exact h3 n hd
        · exact h2 n hn2
    · rw [if_neg hd] at h
      cases hc : createDatasetRecursive d [] s with
      | error e => rw [hc] at h; cases h
      | ok s2 =>
        rw [hc] at h
        dsimp only at h
        obtain ⟨hdex, hmono⟩ := createDatasetRecursive_exists d [] s s2 hc
        cases hl : lookupDS d s2.datasets with
        | none =>
          unfold datasetExists at hdex; rw [hl] at hdex; simp at hdex
        | some info =>
          rw [hl] at h
          obtain ⟨h1, h2, h3⟩ := ih (acc ++ [d]) s2 h
          refine ⟨by simpa using h1, ?_, fun n hn => h3 n (hmono n hn)⟩
          intro n hn
          rcases List.mem_cons.mp hn with rfl | hn2
          · exact h3 n hdex
          · exact h2 n hn2

/-- C8: constructing the driver with an empty root list fails with the
configuration error; a successful construction returns a driver holding
exactly the requested roots, each of which exists in the resulting
backend state (absent ones having been created recursively with no
options); and a backend error on creating an absent first root aborts the
construction, returning that error and no driver. -/
theorem newZfsDriver_spec (dss : List Name) (s : Backend) (zd : ZfsDriver)
    (s1 : Backend) (n d : Name) (rest : List Name)
    (hok : NewZfsDriver dss s = .ok (zd, s1)) (hn : n ∈ dss) :
    NewZfsDriver [] s = .error .noDatasets ∧
    dss ≠ [] ∧ zd.rds = dss ∧ datasetExists n s1 = true ∧
    (datasetExists d s = false → d ∈ s.failCreate →
      NewZfsDriver (d :: rest) s = .error (.createFailed d)) := by
  have hloop : newZfsDriverLoop dss [] s = .ok (zd, s1) := by
    unfold NewZfsDriver at hok
    by_cases hlen : dss.length < 1
    · rw [if_pos hlen] at hok; cases hok
    · rwa [if_neg hlen] at hok
  obtain ⟨h1, h2, _⟩ := newZfsDriverLoop_ok dss [] s zd s1 hloop
  refine ⟨rfl, ?_, by simpa using h1, h2 n hn, ?_⟩
  · intro hnil; subst hnil; simp at hn
  · intro hde hdf
    unfold NewZfsDriver newZfsDriverLoop
    rw [if_neg (by simp)]
    rw [if_neg (by simp [hde])]
    unfold createDatasetRecursive
    rw [if_pos hdf]

/-- Witness for C8 on a backend where root creation of `bad` fails:
constructing with roots `tank` and `pool2` succeeds and both roots exist
afterwards; constructing with `[]` or with the failing root `bad` returns
an error and no driver. -/
theorem newZfsDriver_spec_witness :
    NewZfsDriver [] failingBackend = .error .noDatasets ∧
    (["tank".toList, "pool2".toList] : List Name) ≠ [] ∧
    ({ rds := ["tank".toList, "pool2".toList] } : ZfsDriver).rds =
      ["tank".toList, "pool2".toList] ∧
    datasetExists "pool2".toList
      { datasets := [("pool2".toList, { mountpoint := some "/pool2".toList, creation := some 0 }),
                     ("tank".toList, { mountpoint := some "/tank".toList, creation := some 0 })],
        failCreate := ["bad".toList] } = true ∧
    (datasetExists "bad".toList failingBackend = false →
     "bad".toList ∈ failingBackend.failCreate →
      NewZfsDriver ["bad".toList] failingBackend = .error (.createFailed "bad".toList)) :=
  newZfsDriver_spec ["tank".toList, "pool2".toList] failingBackend
    { rds := ["tank".toList, "pool2".toList] }
    { datasets := [("pool2".toList, { mountpoint := some "/pool2".toList, creation := some 0 }),
                   ("tank".toList, { mountpoint := some "/tank".toList, creation := some 0 })],
      failCreate := ["bad".toList] }
    "pool2".toList "bad".toList [] (by decide) (by decide)

